import Mathlib

/-!
Shallow embedding of `components/backup-stream/src/subscription_manager.rs`:
the region-subscription operator loop, the scan executor's retry loop, the
backoff policy, checkpoint resolution and the completion wait-group, together
with proofs of the spec's claims about them.

External collaborators (router, metadata client, region-info provider,
leadership resolver) are passed in as an `Env` of oracles; components of this
repository that live outside the provided sources (`subscription_track.rs`,
`raftstore`'s epoch comparator, the wait-group in `utils.rs`) are modelled
from the spec, and are marked as such in their doc comments.
-/

namespace SubscriptionManager

/-- Region epoch `(conf_ver, version)` from `kvproto::metapb::RegionEpoch`. -/
structure RegionEpoch where
  conf_ver : Nat
  version : Nat
deriving DecidableEq, Repr

/-- `kvproto::metapb::Region`: id, key range and epoch. Keys are byte lists. -/
structure Region where
  id : Nat
  start_key : List Nat
  end_key : List Nat
  region_epoch : RegionEpoch
deriving DecidableEq, Repr

/-- `raftstore::coprocessor::ObserveHandle`: an opaque token identified by id. -/
structure ObserveHandle where
  id : Nat
deriving DecidableEq, Repr

/-- The error classes of `backup_stream::errors::Error` that
`should_retry` distinguishes.  `raftRequest` carries the flags the source
inspects on the protobuf error (`has_epoch_not_match`, `has_not_leader`,
`has_region_not_found`, and whether the message contains
"stale observe id"). -/
inductive Error where
  | raftRequest (epoch_not_match not_leader region_not_found stale_observe_id_msg : Bool)
  | raftStoreRegionNotFound
  | raftStoreNotLeader
  | raftStoreEpochNotMatch
  | observeCanceled
  | other
  | contextual (inner : Error)
deriving DecidableEq, Repr

/-- `Error::without_context`: strip `Contextual` wrappers. -/
def Error.without_context : Error → Error
  | .contextual e => e.without_context
  | e => e

/-- Modelled from the spec: `err.error_code() == OBSERVE_CANCELED`
(the error-code table of `errors.rs` is outside the provided sources; the
spec says the check is whether "`err` signals observe canceled", and
contextual wrappers delegate to the inner error's code). -/
def Error.is_observe_canceled : Error → Bool
  | .observeCanceled => true
  | .contextual e => e.is_observe_canceled
  | _ => false

/-- `should_retry` from `subscription_manager.rs`: errors implying the region
is drifting (epoch mismatch, not leader, region not found, stale observe id,
observe canceled) are not retried; everything else is. -/
def should_retry (err : Error) : Bool :=
  match err.without_context with
  | .raftRequest enm nl rnf stale => !(enm || nl || stale || rnf)
  | .raftStoreRegionNotFound => false
  | .raftStoreNotLeader => false
  | .observeCanceled => false
  | .raftStoreEpochNotMatch => false
  | _ => true

/-- `TRY_START_OBSERVE_MAX_RETRY_TIME`. -/
def TRY_START_OBSERVE_MAX_RETRY_TIME : Nat := 24

/-- `RETRY_AWAIT_BASIC_DURATION = Duration::from_secs(1)`, in nanoseconds. -/
def RETRY_AWAIT_BASIC_DURATION : Nat := 1000000000

/-- `RETRY_AWAIT_MAX_DURATION = Duration::from_secs(16)`, in nanoseconds. -/
def RETRY_AWAIT_MAX_DURATION : Nat := 16000000000

/-- `backoff_for_start_observe`: `min(1s * (1 << failed_for), 16s)`,
durations in nanoseconds. -/
def backoff_for_start_observe (failed_for : Nat) : Nat :=
  min (RETRY_AWAIT_BASIC_DURATION * (1 <<< failed_for)) RETRY_AWAIT_MAX_DURATION

/-- How one run of `ScanCmd::exec_by_with_retry` ended. -/
inductive ScanOutcome where
  | success
  | ignored (err : Error)
  | fatalDone (err : Error)
deriving DecidableEq, Repr

/-- Trace of one run of `ScanCmd::exec_by_with_retry`: the sleeps performed
(in order, nanoseconds), the fatal-error-handler invocations (each carrying
the key range selected and the reported error), the number of executions of
`exec_by`, and the way the loop ended. -/
structure ScanRun where
  sleeps : List Nat
  fatals : List ((List Nat × List Nat) × Error)
  attempts : Nat
  outcome : ScanOutcome
deriving DecidableEq, Repr

/-- The loop body of `ScanCmd::exec_by_with_retry`, with `att i` the result
of the `i`-th execution of `exec_by` (`none` = success).  `retry_time` counts
down from `TRY_START_OBSERVE_MAX_RETRY_TIME`; the sleep before retry `i` is
`backoff_for_start_observe(TRY_START_OBSERVE_MAX_RETRY_TIME - retry_time)`,
and `handle_fatal_error` selects by the region's key range, wrapping the
error with the "retry time exceeds" context. -/
def exec_retry_go (region : Region) (att : Nat → Option Error) :
    Nat → Nat → ScanRun
  | 0, idx =>
    match att idx with
    | none => ⟨[], [], idx + 1, .success⟩
    | some err =>
      ⟨[], [((region.start_key, region.end_key), Error.contextual err)], idx + 1, .fatalDone err⟩
  | retry_time + 1, idx =>
    match att idx with
    | none => ⟨[], [], idx + 1, .success⟩
    | some err =>
      if should_retry err then
        let rest := exec_retry_go region att retry_time (idx + 1)
        ⟨backoff_for_start_observe (TRY_START_OBSERVE_MAX_RETRY_TIME - (retry_time + 1)) ::
            rest.sleeps,
          rest.fatals, rest.attempts, rest.outcome⟩
      else ⟨[], [], idx + 1, .ignored err⟩

/-- `ScanCmd::exec_by_with_retry`: run the loop starting with
`retry_time = TRY_START_OBSERVE_MAX_RETRY_TIME`. -/
def exec_by_with_retry (region : Region) (att : Nat → Option Error) : ScanRun :=
  exec_retry_go region att TRY_START_OBSERVE_MAX_RETRY_TIME 0

/-- Modelled from the spec: one per-region entry of the subscription tracker
(`ObservationRecord` of `subscription_track.rs`, which is outside the
provided sources): the region snapshot and the current observation handle. -/
structure ObservationRecord where
  meta : Region
  handle : ObserveHandle
deriving DecidableEq, Repr

/-- `CheckpointType` of `subscription_track.rs` (named by the spec). -/
inductive CheckpointType where
  | minTs
  | startTsOfInitialScan
  | normal
deriving DecidableEq, Repr

/-- `ResolveResult`: one region with its resolved checkpoint. -/
structure ResolveResult where
  region : Region
  checkpoint : Nat
  checkpoint_type : CheckpointType
deriving DecidableEq, Repr

/-- `ResolvedRegions`: what `ResolveRegions` hands to its callback. -/
structure ResolvedRegions where
  items : List ResolveResult
  checkpoint : Nat
deriving DecidableEq, Repr

/-- `raft::StateRole`, restricted to what `retry_observe` checks. -/
inductive StateRole where
  | leader
  | follower
deriving DecidableEq, Repr

/-- `raftstore::RegionInfo` as delivered by the region-info provider. -/
structure RegionInfo where
  region : Region
  role : StateRole
deriving DecidableEq, Repr

/-- Labels of the `SKIP_RETRY` metric incremented by `retry_observe`. -/
inductive SkipReason where
  | regionAbsent
  | notLeader
  | staleCommand
deriving DecidableEq, Repr

/-- Labels of the `INITIAL_SCAN_REASON` metric. -/
inductive ScanReason where
  | leaderChanged
  | regionChanged
  | retry
deriving DecidableEq, Repr

/-- Observable actions of the operator loop: fatal task errors sent to the
scheduler (selected by key range), delayed `NotifyFailToStartObserve`
re-submissions, scan commands handed to the scan pool, metric increments,
and `ResolveRegions` callback invocations. -/
inductive Evt where
  | fatalErrorByRange (start_key end_key : List Nat) (err : Error)
  | scheduleNotify (regionId handleId failedFor : Nat)
  | scanDispatched (regionId handleId lastCheckpoint : Nat)
  | skipRetry (r : SkipReason)
  | initialScanReason (r : ScanReason)
  | callbackInvoked (res : ResolvedRegions)
deriving DecidableEq, Repr

/-- The external collaborators of the manager, as oracles:
`Router::find_task_by_range` (task names as numbers),
`MetadataClient::get_region_checkpoint`,
`RegionInfoProvider::find_region_by_id` (the bounded rendezvous: an error
models a failing send or a dropped channel),
the leadership resolver combined with `SubscriptionTracer::resolve_with`
(returning the annotated per-region results), and
the merge test of `SubscriptionTracer::try_update_region`. -/
structure Env where
  find_task_by_range : Region → Option Nat
  get_region_checkpoint : Nat → Region → Except Error Nat
  find_region_by_id : Nat → Except Error (Option RegionInfo)
  resolve : List Nat → Nat → List ResolveResult
  can_merge : Region → ObservationRecord → Bool

/-- The state the operator loop mutates: the tracker's records, its pending
set, the generator for fresh `ObserveHandle` ids, and the event trace
(most recent first). -/
structure LoopState where
  subs : List ObservationRecord
  pending : List Nat
  nextHandleId : Nat
  events : List Evt
deriving DecidableEq, Repr

/-- Modelled from the spec: `SubscriptionTracer::deregister_region_if`
(outside the provided sources): remove the record tracked for the
operation's region id — at most one exists — when the predicate accepts it;
returns the new tracker and whether a record was removed. -/
def deregister_region_if (subs : List ObservationRecord) (r : Region)
    (pred : ObservationRecord → Region → Bool) : List ObservationRecord × Bool :=
  match subs with
  | [] => ([], false)
  | rec :: rest =>
    if rec.meta.id = r.id then
      if pred rec r then (rest, true) else (rec :: rest, false)
    else
      ((rec :: (deregister_region_if rest r pred).1),
        (deregister_region_if rest r pred).2)

/-- Modelled from the spec: `SubscriptionTracer::register_region` (outside
the provided sources): install the record for the region, keeping at most
one record per region id. -/
def register_region (subs : List ObservationRecord) (r : Region)
    (h : ObserveHandle) : List ObservationRecord :=
  ⟨r, h⟩ :: subs.filter (fun rec => rec.meta.id ≠ r.id)

/-- Modelled from the spec: `SubscriptionTracer::try_update_region` (outside
the provided sources): attempt the in-place merge of the region metadata
into the tracked record; the tracker signals an incompatible change through
`Env.can_merge`. -/
def try_update_region (env : Env) (subs : List ObservationRecord)
    (r : Region) : List ObservationRecord × Bool :=
  match subs.find? (fun rec => rec.meta.id == r.id) with
  | some rec =>
    if env.can_merge r rec then
      (subs.map (fun x => if x.meta.id = r.id then { x with meta := r } else x), true)
    else (subs, false)
  | none => (subs, false)

/-- `SubscriptionTracer::current_regions`: the tracked region ids. -/
def current_regions (subs : List ObservationRecord) : List Nat :=
  subs.map (fun rec => rec.meta.id)

/-- Modelled from the spec: the epoch guard of `Destroy`
(`raftstore::store::util::compare_region_epoch` is outside the provided
sources); the spec states the record is removed "only if the operation's
region epoch dominates-or-equals the tracked epoch". -/
def epoch_dominates_or_eq (op tracked : RegionEpoch) : Bool :=
  decide (tracked.conf_ver ≤ op.conf_ver) && decide (tracked.version ≤ op.version)

/-- The predicate `Destroy` passes to `deregister_region_if`. -/
def destroy_pred (rec : ObservationRecord) (r : Region) : Bool :=
  epoch_dominates_or_eq r.region_epoch rec.meta.region_epoch

/-- Strict order on epochs: newer in the partial order. -/
def epoch_lt (a b : RegionEpoch) : Prop :=
  a.conf_ver ≤ b.conf_ver ∧ a.version ≤ b.version ∧ a ≠ b

instance (a b : RegionEpoch) : Decidable (epoch_lt a b) := by
  unfold epoch_lt; infer_instance

/-- `observe_over_with_initial_data_from_checkpoint`: register the record and
hand a `ScanCmd` to the scan pool (the command carries a work token of the
manager's wait-group, modelled separately). -/
def observe_over_with_initial_data_from_checkpoint (st : LoopState)
    (r : Region) (cp : Nat) (h : ObserveHandle) : LoopState :=
  { st with
    subs := register_region st.subs r h,
    events := .scanDispatched r.id h.id cp :: st.events }

/-- `try_start_observe`: look the owning task up by range; absent means a
stale command, aborted silently; otherwise fetch the task's last checkpoint
(which can fail) and dispatch the scan. -/
def try_start_observe (env : Env) (st : LoopState) (r : Region)
    (h : ObserveHandle) : LoopState × Option Error :=
  match env.find_task_by_range r with
  | none => (st, none)
  | some task =>
    match env.get_region_checkpoint task r with
    | .error e => (st, some e)
    | .ok cp => (observe_over_with_initial_data_from_checkpoint st r cp h, none)

/-- `start_observe_with_failure_count`: fresh handle, mark the region
pending, run `try_start_observe`; on failure schedule a delayed
`NotifyFailToStartObserve` carrying `has_failed_for + 1` (the delay is
`backoff_for_start_observe has_failed_for`). -/
def start_observe_with_failure_count (env : Env) (st : LoopState)
    (r : Region) (has_failed_for : Nat) : LoopState :=
  let h : ObserveHandle := ⟨st.nextHandleId⟩
  let st1 := { st with
    nextHandleId := st.nextHandleId + 1,
    pending := r.id :: st.pending }
  match try_start_observe env st1 r h with
  | (st2, none) => st2
  | (st2, some _e) =>
    { st2 with events := .scheduleNotify r.id h.id (has_failed_for + 1) :: st2.events }

/-- `start_observe`: `start_observe_with_failure_count` with count 0. -/
def start_observe (env : Env) (st : LoopState) (r : Region) : LoopState :=
  start_observe_with_failure_count env st r 0

/-- `retry_observe`: reject counts over the budget with an error (the caller
escalates it to a fatal task error); consult the region-info provider via
the bounded rendezvous (whose failures are also errors); skip when the
region is absent or no longer led here; remove the tracked record only when
its handle matches, and skip as a stale command when a record exists with a
different handle; otherwise re-run the `Start` dispatch path with the given
failure count. -/
def retry_observe (env : Env) (st : LoopState) (r : Region)
    (h : ObserveHandle) (failure_count : Nat) : Except Error LoopState :=
  if failure_count > TRY_START_OBSERVE_MAX_RETRY_TIME then
    .error .other
  else
    match env.find_region_by_id r.id with
    | .error e => .error (.contextual e)
    | .ok none => .ok { st with events := .skipRetry .regionAbsent :: st.events }
    | .ok (some info) =>
      if info.role ≠ StateRole.leader then
        .ok { st with events := .skipRetry .notLeader :: st.events }
      else
        let found := st.subs.any (fun rec => rec.meta.id == r.id)
        let dereg := deregister_region_if st.subs r
          (fun old _ => old.handle.id == h.id)
        if !dereg.2 && found then
          .ok { st with events := .skipRetry .staleCommand :: st.events }
        else
          .ok (start_observe_with_failure_count env
            { st with
              subs := dereg.1,
              events := .initialScanReason .retry :: st.events }
            r failure_count)

/-- `refresh_resolver`: try the in-place merge; when the tracker signals an
incompatible change, clear the old record (unconditionally), make a fresh
handle and — when a record was indeed removed and the owning task is found —
re-bootstrap: mark pending, fetch the checkpoint and dispatch the scan, or on
a checkpoint failure schedule `NotifyFailToStartObserve` with count 0. -/
def refresh_resolver (env : Env) (st : LoopState) (r : Region) : LoopState :=
  let upd := try_update_region env st.subs r
  if upd.2 then { st with subs := upd.1 }
  else
    let dereg := deregister_region_if upd.1 r (fun _ _ => true)
    let h : ObserveHandle := ⟨st.nextHandleId⟩
    let st1 := { st with subs := dereg.1, nextHandleId := st.nextHandleId + 1 }
    if dereg.2 then
      match env.find_task_by_range r with
      | some task =>
        let st2 := { st1 with
          events := .initialScanReason .regionChanged :: st1.events,
          pending := r.id :: st1.pending }
        match env.get_region_checkpoint task r with
        | .ok cp => observe_over_with_initial_data_from_checkpoint st2 r cp h
        | .error _e => { st2 with events := .scheduleNotify r.id h.id 0 :: st2.events }
      | none => st1
    else st1

/-- `Iterator::min_by_key` over a list (ties keep the first element). -/
def min_by_key {α : Type} (f : α → Nat) : List α → Option α
  | [] => none
  | x :: xs => some (xs.foldl (fun acc y => if f y < f acc then y else acc) x)

/-- `ObserveOp`, the operator loop's command vocabulary.  The
`ResolveRegions` callback is observed through the event trace, so the
command only carries `min_ts`. -/
inductive ObserveOp where
  | start (region : Region)
  | stop (region : Region)
  | destroy (region : Region)
  | refreshResolver (region : Region)
  | notifyFailToStartObserve (region : Region) (handle : ObserveHandle)
      (err : Error) (has_failed_for : Nat)
  | resolveRegions (min_ts : Nat)
deriving Repr

/-- One iteration of `region_operator_loop`'s `match`: the resulting state
and whether the loop `return`ed (exited) while processing the command.
`ResolveRegions` first drain-waits on the wait-group (bounded, and its
timeout changes no state), resolves the tracked region set, takes the
minimum per-region checkpoint — `min_ts` when there is none — and invokes
the callback exactly once. -/
def loop_step (env : Env) (st : LoopState) (op : ObserveOp) : LoopState × Bool :=
  match op with
  | .start r =>
    let st1 := start_observe env st r
    ({ st1 with events := .initialScanReason .leaderChanged :: st1.events }, false)
  | .stop r =>
    ({ st with subs := (deregister_region_if st.subs r (fun _ _ => true)).1 }, false)
  | .destroy r =>
    ({ st with subs := (deregister_region_if st.subs r destroy_pred).1 }, false)
  | .refreshResolver r => (refresh_resolver env st r, false)
  | .notifyFailToStartObserve r h err failedFor =>
    if err.is_observe_canceled then (st, true)
    else
      match retry_observe env st r h failedFor with
      | .ok st' => (st', false)
      | .error e =>
        ({ st with events :=
            .fatalErrorByRange r.start_key r.end_key (.contextual e) :: st.events },
          false)
  | .resolveRegions min_ts =>
    let cps := env.resolve (current_regions st.subs) min_ts
    let min_region := min_by_key (fun rs => rs.checkpoint) cps
    let rts := (min_region.map (fun rs => rs.checkpoint)).getD min_ts
    ({ st with events := .callbackInvoked ⟨cps, rts⟩ :: st.events }, false)

/-- `region_operator_loop` over the whole mailbox content (the list ends
where the send side is closed): process commands in order; an early
`return` abandons the remaining queue. -/
def region_operator_loop (env : Env) :
    List ObserveOp → LoopState → LoopState × Bool
  | [], st => (st, false)
  | op :: rest, st =>
    match loop_step env st op with
    | (st', true) => (st', true)
    | (st', false) => region_operator_loop env rest st'

/-- Modelled from the spec: the completion barrier (`CallbackWaitGroup` of
`utils.rs`, outside the provided sources).  Wait-group instances are named
by ids; the store tracks the outstanding-token count of each and the next
fresh id.  Only an explicit `work` call creates an outstanding token. -/
structure WaitGroupStore where
  next_id : Nat
  outstanding : Nat → Nat

/-- `CallbackWaitGroup::new()`: a fresh, empty wait-group. -/
def waitGroupNew (s : WaitGroupStore) : Nat × WaitGroupStore :=
  (s.next_id,
    { next_id := s.next_id + 1,
      outstanding := fun i => if i = s.next_id then 0 else s.outstanding i })

/-- The `scans` field of a `RegionSubscriptionManager` handle: the id of the
wait-group it would wait on. -/
structure MgrHandle where
  scans : Nat
deriving DecidableEq, Repr

/-- `Clone for RegionSubscriptionManager`: every field is shared except
`scans`, which is set to `CallbackWaitGroup::new()`. -/
def clone_mgr (_m : MgrHandle) (s : WaitGroupStore) : MgrHandle × WaitGroupStore :=
  let fresh := waitGroupNew s
  (⟨fresh.1⟩, fresh.2)

/-- `CallbackWaitGroup::work()`: acquire one token on the manager's own
wait-group (done for each scan the loop dispatches). -/
def wg_work (m : MgrHandle) (s : WaitGroupStore) : WaitGroupStore :=
  { s with outstanding := fun i =>
      if i = m.scans then s.outstanding i + 1 else s.outstanding i }

/-- Dropping a work token: release one token on the manager's wait-group. -/
def wg_release (m : MgrHandle) (s : WaitGroupStore) : WaitGroupStore :=
  { s with outstanding := fun i =>
      if i = m.scans then s.outstanding i - 1 else s.outstanding i }

/-- `RegionSubscriptionManager::start`, restricted to the wait-group plumbing:
the returned handle `op` gets `scans := CallbackWaitGroup::new()`, and the
operator loop runs on `op.clone()` — which installs yet another fresh
wait-group.  Returns (handle given to the caller, manager the loop runs on,
store). -/
def start_mgr (s0 : WaitGroupStore) : MgrHandle × MgrHandle × WaitGroupStore :=
  let fresh := waitGroupNew s0
  let op : MgrHandle := ⟨fresh.1⟩
  let cl := clone_mgr op fresh.2
  (op, cl.1, cl.2)

/-- Token traffic produced by the operator loop: each dispatched scan
acquires a token of the loop manager's wait-group, each finished scan
releases one. -/
inductive ScanTokenEvt where
  | dispatch
  | finish
deriving DecidableEq, Repr

/-- Apply the loop's token traffic to the store. -/
def apply_loop_tokens (loopMgr : MgrHandle) :
    List ScanTokenEvt → WaitGroupStore → WaitGroupStore
  | [], s => s
  | .dispatch :: rest, s => apply_loop_tokens loopMgr rest (wg_work loopMgr s)
  | .finish :: rest, s => apply_loop_tokens loopMgr rest (wg_release loopMgr s)

/-- `RegionSubscriptionManager::wait(timeout)` returns whether it timed out.
The inner `scans.wait()` suspends exactly while the outstanding count of the
manager's own wait-group is nonzero, so the call can time out only when that
count is nonzero; with count zero it resolves at once and `wait` returns
`false`. -/
def wait_would_block (m : MgrHandle) (s : WaitGroupStore) : Bool :=
  decide (s.outstanding m.scans ≠ 0)

/-! ### Concrete fixtures used by counterexamples and witnesses -/

/-- An environment whose collaborators all answer trivially. -/
def envT : Env :=
  { find_task_by_range := fun _ => none,
    get_region_checkpoint := fun _ _ => .error .other,
    find_region_by_id := fun _ => .ok none,
    resolve := fun _ _ => [],
    can_merge := fun _ _ => false }

/-- A sample region. -/
def regT : Region := ⟨1, [10], [20], ⟨1, 1⟩⟩

/-- A record tracking `regT` under handle 7. -/
def recT : ObservationRecord := ⟨regT, ⟨7⟩⟩

/-- A state tracking `regT`. -/
def stT : LoopState := ⟨[recT], [], 100, []⟩

/-- `regT` after a membership/range change: epoch `(2, 2)`. -/
def regNewT : Region := ⟨1, [10], [20], ⟨2, 2⟩⟩

/-- The same region named with the old epoch `(1, 1)`. -/
def regOldT : Region := ⟨1, [10], [20], ⟨1, 1⟩⟩

/-- A state tracking region 1 at the newer epoch `(2, 2)`. -/
def stEpochT : LoopState := ⟨[⟨regNewT, ⟨3⟩⟩], [], 10, []⟩

/-- An environment owning every range as task 0, with checkpoint 5 and no
mergeable region updates. -/
def envC8 : Env :=
  { envT with
    find_task_by_range := fun _ => some 0,
    get_region_checkpoint := fun _ _ => .ok 5 }

/-- An attempt sequence that always fails with a retryable error. -/
def attAllRetry : Nat → Option Error := fun _ => some .other

/-- 24 retryable failures followed by observe-canceled failures. -/
def attRetryThenCanceled : Nat → Option Error := fun i =>
  if i < 24 then some .other else some .observeCanceled

/-- A single non-retryable failure, then successes. -/
def attCanceledFirst : Nat → Option Error := fun i =>
  if i = 0 then some .observeCanceled else none

/-! ### Helper lemmas -/

/-- `deregister_region_if` is the identity when no tracked record has the
operation's region id. -/
theorem deregister_region_if_no_match (subs : List ObservationRecord)
    (r : Region) (pred : ObservationRecord → Region → Bool)
    (h : ∀ rec ∈ subs, rec.meta.id ≠ r.id) :
    deregister_region_if subs r pred = (subs, false) := by
  induction subs with
  | nil => rfl
  | cons a tl ih =>
    have ha : a.meta.id ≠ r.id := h a (by simp)
    have htl := ih (fun x hx => h x (by simp [hx]))
    simp [deregister_region_if, ha, htl]

/-- `deregister_region_if` on a tracker whose (unique) record for the id sits
between `pre` and `post`: remove it exactly when the predicate accepts it. -/
theorem deregister_region_if_first_match (pre : List ObservationRecord)
    (rec : ObservationRecord) (post : List ObservationRecord) (r : Region)
    (pred : ObservationRecord → Region → Bool)
    (hpre : ∀ x ∈ pre, x.meta.id ≠ r.id) (hid : rec.meta.id = r.id) :
    deregister_region_if (pre ++ rec :: post) r pred =
      if pred rec r then (pre ++ post, true) else (pre ++ rec :: post, false) := by
  induction pre with
  | nil =>
    by_cases hp : pred rec r <;> simp [deregister_region_if, hid, hp]
  | cons a tl ih =>
    have ha : a.meta.id ≠ r.id := hpre a (by simp)
    have htl := ih (fun x hx => hpre x (by simp [hx]))
    by_cases hp : pred rec r <;>
      simp [deregister_region_if, ha, htl, hp]

/-- `deregister_region_if` is the identity when the predicate rejects every
record carrying the operation's region id. -/
theorem deregister_region_if_pred_false (subs : List ObservationRecord)
    (r : Region) (pred : ObservationRecord → Region → Bool)
    (h : ∀ rec ∈ subs, rec.meta.id = r.id → pred rec r = false) :
    deregister_region_if subs r pred = (subs, false) := by
  induction subs with
  | nil => rfl
  | cons a tl ih =>
    have htl := ih (fun x hx => h x (by simp [hx]))
    by_cases ha : a.meta.id = r.id
    · have := h a (by simp) ha
      simp [deregister_region_if, ha, this, htl]
    · simp [deregister_region_if, ha, htl]

/-- Unconditional deregistration removes exactly one record when one with
the region's id is tracked. -/
theorem deregister_region_if_true_length (subs : List ObservationRecord)
    (r : Region)
    (h : subs.any (fun rec => rec.meta.id == r.id) = true) :
    ((deregister_region_if subs r (fun _ _ => true)).1).length + 1 = subs.length := by
  induction subs with
  | nil => simp at h
  | cons a tl ih =>
    by_cases ha : a.meta.id = r.id
    · simp [deregister_region_if, ha]
    · have htl : tl.any (fun rec => rec.meta.id == r.id) = true := by
        simp only [List.any_cons] at h
        rcases Bool.or_eq_true_iff.mp h with h1 | h1
        · exact absurd (by simpa using h1) ha
        · exact h1
      simp [deregister_region_if, ha, ih htl]

/-- A successful removal exhibits a tracked record with the operation's
region id accepted by the predicate. -/
theorem deregister_region_if_removed_mem (subs : List ObservationRecord)
    (r : Region) (pred : ObservationRecord → Region → Bool)
    (h : (deregister_region_if subs r pred).2 = true) :
    ∃ rec ∈ subs, rec.meta.id = r.id ∧ pred rec r = true := by
  induction subs with
  | nil => simp [deregister_region_if] at h
  | cons a tl ih =>
    by_cases ha : a.meta.id = r.id
    · by_cases hp : pred a r = true
      · exact ⟨a, by simp, ha, hp⟩
      · simp [deregister_region_if, ha, hp] at h
    · simp only [deregister_region_if, if_neg ha] at h
      obtain ⟨rec, hrec, h3, h4⟩ := ih h
      exact ⟨rec, by simp [hrec], h3, h4⟩

/-- A failed `try_update_region` leaves the tracker unchanged. -/
theorem try_update_region_fail (env : Env) (subs : List ObservationRecord)
    (r : Region) (h : (try_update_region env subs r).2 = false) :
    try_update_region env subs r = (subs, false) := by
  unfold try_update_region at h ⊢
  rcases hf : subs.find? (fun rec => rec.meta.id == r.id) with _ | rec0
  · simp [hf]
  · rw [hf] at h ⊢
    by_cases hcm : env.can_merge r rec0 = true
    · simp [hcm] at h
    · simp [hcm]

/-- Two evaluations of the same deterministic loop step agree on the
resulting state. -/
theorem loop_step_state_eq {env : Env} {st : LoopState} {op : ObserveOp}
    {st' X : LoopState} (hls : loop_step env st op = (X, false))
    (hstep : loop_step env st op = (st', false)) : st' = X := by
  rw [hls] at hstep
  injection hstep with ha _
  exact ha.symm

/-- If a step only prepends a non-`retry`-reason event, the `retry` reason
cannot newly appear in the trace. -/
theorem retry_evt_contra (st st' : LoopState) (v : Evt)
    (hv : v ≠ .initialScanReason .retry)
    (h1 : st' = { st with events := v :: st.events })
    (hmem : Evt.initialScanReason .retry ∈ st'.events)
    (hnot : Evt.initialScanReason .retry ∉ st.events) : False := by
  subst h1
  simp only [List.mem_cons] at hmem
  rcases hmem with h2 | h2
  · exact hv h2.symm
  · exact hnot h2

/-- When `retry_observe` errors out, the loop arm records a fatal task error
and the `retry` scan reason cannot newly appear in the trace. -/
theorem notify_error_no_retry_evt (env : Env) (st : LoopState) (r : Region)
    (h : ObserveHandle) (e : Error) (fc : Nat) (st' : LoopState) (e2 : Error)
    (hnc : e.is_observe_canceled = false)
    (hro : retry_observe env st r h fc = .error e2)
    (hstep : loop_step env st (.notifyFailToStartObserve r h e fc) = (st', false))
    (hmem : Evt.initialScanReason .retry ∈ st'.events)
    (hnot : Evt.initialScanReason .retry ∉ st.events) : False := by
  have hls : loop_step env st (.notifyFailToStartObserve r h e fc) =
      ({ st with events :=
          .fatalErrorByRange r.start_key r.end_key (.contextual e2) ::
            st.events }, false) := by
    simp [loop_step, hnc, hro]
  exact retry_evt_contra st st' _ (by simp) (loop_step_state_eq hls hstep)
    hmem hnot

/-- When `retry_observe` skips, the loop arm records the skip metric and the
`retry` scan reason cannot newly appear in the trace. -/
theorem notify_skip_no_retry_evt (env : Env) (st : LoopState) (r : Region)
    (h : ObserveHandle) (e : Error) (fc : Nat) (st' : LoopState)
    (sk : SkipReason)
    (hnc : e.is_observe_canceled = false)
    (hro : retry_observe env st r h fc =
      .ok { st with events := Evt.skipRetry sk :: st.events })
    (hstep : loop_step env st (.notifyFailToStartObserve r h e fc) = (st', false))
    (hmem : Evt.initialScanReason .retry ∈ st'.events)
    (hnot : Evt.initialScanReason .retry ∉ st.events) : False := by
  have hls : loop_step env st (.notifyFailToStartObserve r h e fc) =
      ({ st with events := Evt.skipRetry sk :: st.events }, false) := by
    simp [loop_step, hnc, hro]
  exact retry_evt_contra st st' _ (by simp) (loop_step_state_eq hls hstep)
    hmem hnot

/-- An epoch strictly older in the partial order never dominates-or-equals. -/
theorem epoch_dominates_of_lt_false (a b : RegionEpoch) (h : epoch_lt a b) :
    epoch_dominates_or_eq a b = false := by
  obtain ⟨h1, h2, h3⟩ := h
  unfold epoch_dominates_or_eq
  by_cases hc : b.conf_ver ≤ a.conf_ver
  · by_cases hv : b.version ≤ a.version
    · exfalso
      apply h3
      cases a; cases b
      simp only [RegionEpoch.mk.injEq]
      simp only at h1 h2 hc hv
      omega
    · simp [hv]
  · simp [hc]

/-- The fold inside `min_by_key` returns an element of the list whose key is
minimal (first on ties). -/
theorem foldl_min_spec {α : Type} (f : α → Nat) (xs : List α) :
    ∀ x : α,
      (xs.foldl (fun acc y => if f y < f acc then y else acc) x) ∈ x :: xs ∧
      f (xs.foldl (fun acc y => if f y < f acc then y else acc) x) ≤ f x ∧
      ∀ y ∈ xs, f (xs.foldl (fun acc y => if f y < f acc then y else acc) x) ≤ f y := by
  induction xs with
  | nil => intro x; simp
  | cons a tl ih =>
    intro x
    by_cases h : f a < f x
    · obtain ⟨hmem, hle, hall⟩ := ih a
      refine ⟨?_, ?_, ?_⟩
      · simp only [List.foldl_cons, if_pos h]
        rcases List.mem_cons.mp hmem with h1 | h1
        · simp [h1]
        · simp [List.mem_cons_of_mem, h1]
      · simp only [List.foldl_cons, if_pos h]
        omega
      · intro y hy
        simp only [List.foldl_cons, if_pos h]
        rcases List.mem_cons.mp hy with h1 | h1
        · rw [h1]; exact hle
        · exact hall y h1
    · obtain ⟨hmem, hle, hall⟩ := ih x
      refine ⟨?_, ?_, ?_⟩
      · simp only [List.foldl_cons, if_neg h]
        rcases List.mem_cons.mp hmem with h1 | h1
        · simp [h1]
        · simp [List.mem_cons_of_mem, h1]
      · simp only [List.foldl_cons, if_neg h]
        exact hle
      · intro y hy
        simp only [List.foldl_cons, if_neg h]
        rcases List.mem_cons.mp hy with h1 | h1
        · rw [h1]; omega
        · exact hall y h1

/-- The loop's token traffic never touches the count of a different
wait-group. -/
theorem apply_loop_tokens_preserves (m : MgrHandle) (evs : List ScanTokenEvt) :
    ∀ (s : WaitGroupStore) (j : Nat), j ≠ m.scans →
      (apply_loop_tokens m evs s).outstanding j = s.outstanding j := by
  induction evs with
  | nil => intro s j _; rfl
  | cons e tl ih =>
    intro s j hj
    cases e with
    | dispatch => simp [apply_loop_tokens, ih _ j hj, wg_work, hj]
    | finish => simp [apply_loop_tokens, ih _ j hj, wg_release, hj]

/-- When every attempt fails with a retryable error, the retry loop burns its
whole budget and ends with exactly one fatal report for the region's range. -/
theorem exec_retry_go_all_retry (region : Region) (att : Nat → Option Error)
    (h : ∀ i, ∃ e, att i = some e ∧ should_retry e = true) :
    ∀ rt idx, ∃ e, att (idx + rt) = some e ∧
      (exec_retry_go region att rt idx).fatals =
        [((region.start_key, region.end_key), Error.contextual e)] ∧
      (exec_retry_go region att rt idx).attempts = idx + rt + 1 ∧
      (exec_retry_go region att rt idx).sleeps.length = rt ∧
      (exec_retry_go region att rt idx).outcome = .fatalDone e := by
  intro rt
  induction rt with
  | zero =>
    intro idx
    obtain ⟨e, he, _⟩ := h idx
    exact ⟨e, by simpa using he, by simp [exec_retry_go, he],
      by simp [exec_retry_go, he], by simp [exec_retry_go, he],
      by simp [exec_retry_go, he]⟩
  | succ rt ih =>
    intro idx
    obtain ⟨e0, he0, hr0⟩ := h idx
    obtain ⟨e, he, hf, ha, hs, ho⟩ := ih (idx + 1)
    refine ⟨e, ?_, ?_, ?_, ?_, ?_⟩
    · rw [show idx + (rt + 1) = idx + 1 + rt by omega]; exact he
    · simp [exec_retry_go, he0, hr0, hf]
    · simp [exec_retry_go, he0, hr0, ha]; omega
    · simp [exec_retry_go, he0, hr0, hs]
    · simp [exec_retry_go, he0, hr0, ho]

/-- When the first `m` attempts fail retryably and attempt `m` fails with a
non-retryable error while budget remains, the loop stops quietly: no fatal
report, outcome `ignored`. -/
theorem exec_retry_go_nonretryable (region : Region) (att : Nat → Option Error) :
    ∀ (m rt idx : Nat) (e : Error), m < rt →
      (∀ j, j < m → ∃ e2, att (idx + j) = some e2 ∧ should_retry e2 = true) →
      att (idx + m) = some e → should_retry e = false →
      (exec_retry_go region att rt idx).outcome = .ignored e ∧
      (exec_retry_go region att rt idx).fatals = [] ∧
      (exec_retry_go region att rt idx).attempts = idx + m + 1 := by
  intro m
  induction m with
  | zero =>
    intro rt idx e hm hpre he hnr
    match rt, hm with
    | rt' + 1, _ =>
      have he' : att idx = some e := by simpa using he
      refine ⟨?_, ?_, ?_⟩ <;> simp [exec_retry_go, he', hnr]
  | succ m ih =>
    intro rt idx e hm hpre he hnr
    match rt, hm with
    | rt' + 1, _ =>
      obtain ⟨e0, he0, hr0⟩ := hpre 0 (by omega)
      have he0' : att idx = some e0 := by simpa using he0
      have hrec := ih rt' (idx + 1) e (by omega)
        (fun j hj => by
          obtain ⟨e2, h2, h3⟩ := hpre (j + 1) (by omega)
          exact ⟨e2, by rw [show idx + 1 + j = idx + (j + 1) by omega]; exact h2, h3⟩)
        (by rw [show idx + 1 + m = idx + (m + 1) by omega]; exact he) hnr
      refine ⟨?_, ?_, ?_⟩
      · simp [exec_retry_go, he0', hr0, hrec.1]
      · simp [exec_retry_go, he0', hr0, hrec.2.1]
      · simp [exec_retry_go, he0', hr0, hrec.2.2]; omega

/-! ### Claim theorems -/

/-- C9: for every failure count `n` accepted by the retry paths (`n ≤ 24`),
`backoff_for_start_observe n = min (1s * 2 ^ n) 16s` (in nanoseconds), and
the delays for failure counts 0..5 are exactly 1s, 2s, 4s, 8s, 16s, 16s. -/
theorem c9_backoff_formula (n : Nat) (_hn : n ≤ 24) :
    backoff_for_start_observe n = min (1000000000 * 2 ^ n) 16000000000 ∧
    (List.range 6).map backoff_for_start_observe =
      [1000000000, 2000000000, 4000000000, 8000000000,
        16000000000, 16000000000] := by
  constructor
  · simp [backoff_for_start_observe, RETRY_AWAIT_BASIC_DURATION,
      RETRY_AWAIT_MAX_DURATION, Nat.shiftLeft_eq]
  · decide

/-- Witness for C9 at `n = 3`. -/
theorem c9_backoff_formula_witness :
    backoff_for_start_observe 3 = min (1000000000 * 2 ^ 3) 16000000000 :=
  (c9_backoff_formula 3 (by decide)).1

/-- C10: `start` hands the caller a manager whose cloned loop counterpart
carries a brand-new wait-group; every token the loop's scans acquire or
release lives in the loop's own group, so the caller's handle always sees
zero outstanding work and its `wait(timeout)` returns without timing out. -/
theorem c10_clone_fresh_wait_group (s0 : WaitGroupStore)
    (evs : List ScanTokenEvt) :
    (start_mgr s0).1.scans ≠ (start_mgr s0).2.1.scans ∧
    (apply_loop_tokens (start_mgr s0).2.1 evs
        (start_mgr s0).2.2).outstanding (start_mgr s0).1.scans = 0 ∧
    wait_would_block (start_mgr s0).1
      (apply_loop_tokens (start_mgr s0).2.1 evs (start_mgr s0).2.2) = false := by
  have hid1 : (start_mgr s0).1.scans = s0.next_id := rfl
  have hid2 : (start_mgr s0).2.1.scans = s0.next_id + 1 := rfl
  have hne : (start_mgr s0).1.scans ≠ (start_mgr s0).2.1.scans := by
    rw [hid1, hid2]; omega
  have hzero : ((start_mgr s0).2.2).outstanding ((start_mgr s0).1.scans) = 0 := by
    simp [start_mgr, waitGroupNew, clone_mgr]
  have hkeep := apply_loop_tokens_preserves (start_mgr s0).2.1 evs
    (start_mgr s0).2.2 (start_mgr s0).1.scans hne
  refine ⟨hne, ?_, ?_⟩
  · rw [hkeep, hzero]
  · simp [wait_would_block, hkeep, hzero]

/-- Witness for C10 at a concrete store and event list. -/
theorem c10_clone_fresh_wait_group_witness :
    wait_would_block (start_mgr ⟨0, fun _ => 0⟩).1
      (apply_loop_tokens (start_mgr ⟨0, fun _ => 0⟩).2.1
        [.dispatch, .dispatch, .finish] (start_mgr ⟨0, fun _ => 0⟩).2.2) = false :=
  (c10_clone_fresh_wait_group ⟨0, fun _ => 0⟩ [.dispatch, .dispatch, .finish]).2.2

/-- C1 names the intended behavior, but the code disagrees: on a
`NotifyFailToStartObserve` whose error signals observe-canceled the loop
body executes `return`, terminating `region_operator_loop` although the
mailbox is not closed.  Concretely, queueing the canceled notification
followed by `Stop` leaves the `Stop` unprocessed (the record survives),
while `Stop` alone removes the record. -/
theorem c1_observe_canceled_exits_loop :
    region_operator_loop envT
        [.notifyFailToStartObserve regT ⟨7⟩ .observeCanceled 1, .stop regT]
        stT = (stT, true) ∧
    (region_operator_loop envT [.stop regT] stT).1.subs = [] := by
  exact ⟨rfl, rfl⟩

/-- C2: if every execution attempt of a scan command fails with a retryable
error, the retry loop performs 24 backoff-retries after the first failure,
executes the scan 25 times in total, then reports exactly one fatal error
selecting the region's key range, and schedules no further retry. -/
theorem c2_retry_exhaustion_single_fatal (region : Region)
    (att : Nat → Option Error)
    (h : ∀ i, ∃ e, att i = some e ∧ should_retry e = true) :
    ∃ e, (exec_by_with_retry region att).fatals =
        [((region.start_key, region.end_key), Error.contextual e)] ∧
      (exec_by_with_retry region att).fatals.length = 1 ∧
      (exec_by_with_retry region att).sleeps.length = 24 ∧
      (exec_by_with_retry region att).attempts = 25 ∧
      (exec_by_with_retry region att).outcome = .fatalDone e := by
  obtain ⟨e, _, hf, ha, hs, ho⟩ := exec_retry_go_all_retry region att h 24 0
  have hrw : exec_by_with_retry region att = exec_retry_go region att 24 0 := rfl
  rw [hrw]
  exact ⟨e, hf, by rw [hf]; rfl, hs, by simpa using ha, ho⟩

/-- Witness for C2: the always-retryable attempt sequence. -/
theorem c2_retry_exhaustion_single_fatal_witness :
    (exec_by_with_retry regT attAllRetry).fatals.length = 1 := by
  obtain ⟨e, _, h1, _⟩ :=
    c2_retry_exhaustion_single_fatal regT attAllRetry
      (fun _ => ⟨.other, rfl, rfl⟩)
  exact h1

/-- C4 is false as stated: after 24 retryable failures the budget is
exhausted, and the 25th execution's error triggers the fatal-error handler
even when that error is non-retryable (observe-canceled here), because the
`retry_time == 0` arm fires for any error. -/
theorem c4_counterexample :
    should_retry .observeCanceled = false ∧
    (exec_by_with_retry regT attRetryThenCanceled).outcome =
      .fatalDone .observeCanceled ∧
    (exec_by_with_retry regT attRetryThenCanceled).fatals =
      [((regT.start_key, regT.end_key), Error.contextual .observeCanceled)] := by
  exact ⟨rfl, rfl, rfl⟩

/-- C4 amended: whenever the scan stops because of a non-retryable error
while retry budget remains — i.e. fewer than 24 retryable failures preceded
it — the fatal-error handler is not invoked and the loop ends `ignored`;
only a failure on the very last budgeted attempt (after 24 retryable
failures) reaches the fatal arm. -/
theorem c4_amended_nonretryable_no_fatal (region : Region)
    (att : Nat → Option Error) (k : Nat) (e : Error) (hk : k < 24)
    (hpre : ∀ j, j < k → ∃ e2, att j = some e2 ∧ should_retry e2 = true)
    (hke : att k = some e) (hnr : should_retry e = false) :
    (exec_by_with_retry region att).fatals = [] ∧
    (exec_by_with_retry region att).outcome = .ignored e ∧
    (exec_by_with_retry region att).attempts = k + 1 := by
  have hrw : exec_by_with_retry region att = exec_retry_go region att 24 0 := rfl
  have h := exec_retry_go_nonretryable region att k 24 0 e hk
    (fun j hj => by simpa using hpre j hj) (by simpa using hke) hnr
  rw [hrw]
  exact ⟨h.2.1, h.1, by simpa using h.2.2⟩

/-- Witness for C4's amended theorem: an immediately-canceled scan produces
no fatal report. -/
theorem c4_amended_nonretryable_no_fatal_witness :
    (exec_by_with_retry regT attCanceledFirst).fatals = [] :=
  (c4_amended_nonretryable_no_fatal regT attCanceledFirst 0 .observeCanceled
    (by decide) (fun j hj => absurd hj (by omega)) rfl rfl).1

/-- C5 is false as stated: the monotonic epoch guard holds only for
`Destroy`.  `Stop` passes the always-true predicate to
`deregister_region_if`, so a `Stop` naming the old epoch `(1, 1)` removes
the record tracked at the strictly newer epoch `(2, 2)`. -/
theorem c5_counterexample :
    epoch_lt regOldT.region_epoch regNewT.region_epoch ∧
    stEpochT.subs = [⟨regNewT, ⟨3⟩⟩] ∧
    (loop_step envT stEpochT (.stop regOldT)).1.subs = [] := by
  exact ⟨by decide, rfl, rfl⟩

/-- C5 amended: `Destroy` never removes a tracked record whose epoch is
strictly newer than the epoch named in the operation, while `Stop` removes
the tracked record unconditionally, regardless of epochs. -/
theorem c5_amended_epoch_guard_destroy_only (env : Env) (st : LoopState)
    (r : Region)
    (hnew : ∀ rec ∈ st.subs, rec.meta.id = r.id →
      epoch_lt r.region_epoch rec.meta.region_epoch) :
    (loop_step env st (.destroy r)).1.subs = st.subs ∧
    (st.subs.any (fun rec => rec.meta.id == r.id) = true →
      ((loop_step env st (.stop r)).1.subs).length + 1 = st.subs.length) := by
  constructor
  · have hd := deregister_region_if_pred_false st.subs r destroy_pred
      (fun rec hrec hid => by
        have := hnew rec hrec hid
        exact epoch_dominates_of_lt_false _ _ this)
    simp [loop_step, hd]
  · intro hany
    have := deregister_region_if_true_length st.subs r hany
    simpa [loop_step] using this

/-- Witness for C5's amended theorem, at the state tracking epoch `(2, 2)`
and a `Destroy` naming epoch `(1, 1)`. -/
theorem c5_amended_epoch_guard_destroy_only_witness :
    (loop_step envT stEpochT (.destroy regOldT)).1.subs = stEpochT.subs ∧
    ((loop_step envT stEpochT (.stop regOldT)).1.subs).length + 1 =
      stEpochT.subs.length := by
  have h := c5_amended_epoch_guard_destroy_only envT stEpochT regOldT
    (by intro rec hrec _; simp [stEpochT] at hrec; subst hrec; decide)
  exact ⟨h.1, h.2 (by decide)⟩

/-- C6: `Destroy` removes the tracked record exactly when the operation's
region epoch dominates-or-equals the tracked epoch, and is a no-op
otherwise; in particular, after `RefreshResolver` merges epoch `E_new` into
the record, a `Destroy` naming an older epoch `E_old < E_new` leaves the
record tracked. -/
theorem c6_destroy_epoch_guard (env : Env) (st : LoopState) (r : Region)
    (rec : ObservationRecord) (pre post : List ObservationRecord)
    (hsplit : st.subs = pre ++ rec :: post)
    (hpre : ∀ x ∈ pre, x.meta.id ≠ r.id)
    (hid : rec.meta.id = r.id) :
    ((loop_step env st (.destroy r)).1.subs =
      if epoch_dominates_or_eq r.region_epoch rec.meta.region_epoch
      then pre ++ post else st.subs) ∧
    (∀ (env2 : Env) (st2 : LoopState) (r_new r_old : Region)
        (rec2 : ObservationRecord),
      st2.subs = [rec2] → rec2.meta.id = r_new.id → r_old.id = r_new.id →
      env2.can_merge r_new rec2 = true →
      epoch_lt r_old.region_epoch r_new.region_epoch →
      (region_operator_loop env2 [.refreshResolver r_new, .destroy r_old]
          st2).1.subs = [⟨r_new, rec2.handle⟩]) := by
  constructor
  · have hd := deregister_region_if_first_match pre rec post r destroy_pred
      hpre hid
    simp only [loop_step]
    rw [hsplit, hd]
    rcases Bool.eq_false_or_eq_true
        (epoch_dominates_or_eq r.region_epoch rec.meta.region_epoch) with hp | hp <;>
      simp [destroy_pred, hp]
  · intro env2 st2 r_new r_old rec2 hsubs hid2 hido hmerge hlt
    have hbeq : (rec2.meta.id == r_new.id) = true := by simp [hid2]
    have hupd : try_update_region env2 st2.subs r_new =
        ([⟨r_new, rec2.handle⟩], true) := by
      rw [hsubs]
      simp [try_update_region, hbeq, hmerge, hid2]
    have href : refresh_resolver env2 st2 r_new =
        { st2 with subs := [⟨r_new, rec2.handle⟩] } := by
      simp [refresh_resolver, hupd]
    have hpredf : destroy_pred ⟨r_new, rec2.handle⟩ r_old = false := by
      simpa [destroy_pred] using epoch_dominates_of_lt_false _ _ hlt
    have hd2 := deregister_region_if_first_match []
      (⟨r_new, rec2.handle⟩ : ObservationRecord) [] r_old destroy_pred
      (by simp) (by simpa using hido.symm)
    simp only [List.nil_append] at hd2
    simp [region_operator_loop, loop_step, href, hd2, hpredf]

/-- Witness for C6, tracking epoch `(2, 2)`: both the `Destroy` guard
conjunct and the refresh-then-destroy scenario at concrete inputs. -/
theorem c6_destroy_epoch_guard_witness :
    (loop_step envT stEpochT (.destroy regOldT)).1.subs =
      (if epoch_dominates_or_eq regOldT.region_epoch regNewT.region_epoch
        then ([] : List ObservationRecord) ++ [] else stEpochT.subs) ∧
    (region_operator_loop
        { envT with can_merge := fun _ _ => true }
        [.refreshResolver regNewT, .destroy regOldT]
        { stEpochT with subs := [⟨regOldT, ⟨3⟩⟩] }).1.subs =
      [⟨regNewT, (⟨3⟩ : ObserveHandle)⟩] := by
  have h := c6_destroy_epoch_guard envT stEpochT regOldT ⟨regNewT, ⟨3⟩⟩ [] []
    rfl (by simp) (by decide)
  refine ⟨h.1, ?_⟩
  exact h.2 { envT with can_merge := fun _ _ => true }
    { stEpochT with subs := [⟨regOldT, ⟨3⟩⟩] } regNewT regOldT ⟨regOldT, ⟨3⟩⟩
    rfl (by decide) (by decide) rfl (by decide)

/-- C3: each `ResolveRegions{min_ts}` command invokes the callback exactly
once, passing the per-region results of the leadership resolver unchanged;
the global checkpoint is the minimum per-region checkpoint of that set, and
equals `min_ts` exactly when the set is empty.  The tracker is untouched. -/
theorem c3_resolve_regions_callback (env : Env) (st : LoopState)
    (min_ts : Nat) :
    ∃ res : ResolvedRegions,
      (loop_step env st (.resolveRegions min_ts)).1.events =
        .callbackInvoked res :: st.events ∧
      (loop_step env st (.resolveRegions min_ts)).1.subs = st.subs ∧
      res.items = env.resolve (current_regions st.subs) min_ts ∧
      (res.items = [] → res.checkpoint = min_ts) ∧
      (res.items ≠ [] →
        res.checkpoint ∈ res.items.map (fun rs => rs.checkpoint) ∧
        ∀ c ∈ res.items.map (fun rs => rs.checkpoint), res.checkpoint ≤ c) := by
  refine ⟨_, rfl, rfl, rfl, ?_, ?_⟩
  · intro hnil
    have hnil' : env.resolve (current_regions st.subs) min_ts = [] := hnil
    simp [min_by_key, hnil']
  · intro hne
    rcases hcps : env.resolve (current_regions st.subs) min_ts with _ | ⟨x, xs⟩
    · rw [hcps] at hne
      exact absurd rfl hne
    · obtain ⟨hmem, hhead, hall⟩ :=
        foldl_min_spec (fun rs : ResolveResult => rs.checkpoint) xs x
      constructor
      · simp only [min_by_key, Option.map_some, Option.getD_some]
        exact List.mem_map_of_mem _ hmem
      · intro c hc
        simp only [min_by_key, Option.map_some, Option.getD_some] at hc ⊢
        obtain ⟨y, hy, hyc⟩ := List.mem_map.mp hc
        rcases List.mem_cons.mp hy with h1 | h1
        · subst h1
          rw [← hyc]
          exact hhead
        · rw [← hyc]
          exact hall y h1

/-- Witness for C3 with an empty resolver set: the callback is invoked once
with global checkpoint `min_ts = 5`. -/
theorem c3_resolve_regions_callback_witness :
    (loop_step envT stT (.resolveRegions 5)).1.events =
      .callbackInvoked ⟨[], 5⟩ :: stT.events := by
  obtain ⟨res, h1, _, h3, h4, _⟩ := c3_resolve_regions_callback envT stT 5
  have hitems : res.items = [] := h3
  have hcp : res.checkpoint = 5 := h4 hitems
  have hres : res = ⟨[], 5⟩ := by
    cases res
    simp only at hitems hcp
    simp [hitems, hcp]
  rw [← hres]
  exact h1

/-- C7: for a `NotifyFailToStartObserve` whose error is not
observe-canceled, (a) a failure count over the max-retry budget of 24 emits
a fatal task error selected by the region's key range and leaves the
tracker untouched; (b) when a record is tracked for the region under a
different handle, the command is dropped as stale with the skip-retry
metric; (c) the `Start` dispatch path is re-run only when the region-info
provider reports this node as leader, every record tracked for the region
carries the operation's handle, and the failure count is within budget.
The hypothesis `hone` is the tracker's at-most-one-record-per-region
invariant. -/
theorem c7_retry_observe_validation (env : Env) (st : LoopState)
    (r : Region) (h : ObserveHandle) (e : Error) (fc : Nat)
    (hnc : e.is_observe_canceled = false)
    (hone : ∀ x ∈ st.subs, ∀ y ∈ st.subs,
      x.meta.id = y.meta.id → x.handle.id = y.handle.id) :
    (fc > 24 →
      (loop_step env st (.notifyFailToStartObserve r h e fc)).1 =
        { st with events :=
            .fatalErrorByRange r.start_key r.end_key (.contextual .other) ::
              st.events }) ∧
    (∀ (info : RegionInfo) (pre : List ObservationRecord)
        (rec : ObservationRecord) (post : List ObservationRecord),
      fc ≤ 24 →
      env.find_region_by_id r.id = .ok (some info) →
      info.role = .leader →
      st.subs = pre ++ rec :: post →
      (∀ x ∈ pre, x.meta.id ≠ r.id) →
      rec.meta.id = r.id → rec.handle.id ≠ h.id →
      (loop_step env st (.notifyFailToStartObserve r h e fc)).1 =
        { st with events := .skipRetry .staleCommand :: st.events }) ∧
    (∀ st', loop_step env st (.notifyFailToStartObserve r h e fc) =
        (st', false) →
      Evt.initialScanReason .retry ∈ st'.events →
      Evt.initialScanReason .retry ∉ st.events →
      fc ≤ 24 ∧
      (∃ info, env.find_region_by_id r.id = .ok (some info) ∧
        info.role = .leader) ∧
      (∀ rec ∈ st.subs, rec.meta.id = r.id → rec.handle.id = h.id)) := by
  refine ⟨?_, ?_, ?_⟩
  · intro h24
    have hro : retry_observe env st r h fc = .error .other := by
      simp [retry_observe, TRY_START_OBSERVE_MAX_RETRY_TIME, h24]
    simp [loop_step, hnc, hro]
  · intro info pre rec post h24 hfind hrole hsplit hpreid hid hhd
    have h24' : ¬ fc > TRY_START_OBSERVE_MAX_RETRY_TIME := by
      simp [TRY_START_OBSERVE_MAX_RETRY_TIME]; omega
    have hany : (pre ++ rec :: post).any (fun x => x.meta.id == r.id) = true := by
      simp [List.any_append, hid]
    have hd := deregister_region_if_first_match pre rec post r
      (fun old _ => old.handle.id == h.id) hpreid hid
    have hd2 : deregister_region_if (pre ++ rec :: post) r
        (fun old _ => old.handle.id == h.id) = (pre ++ rec :: post, false) := by
      rw [hd]
      simp [hhd]
    have hro : retry_observe env st r h fc =
        .ok { st with events := .skipRetry .staleCommand :: st.events } := by
      rw [retry_observe, if_neg h24', hfind]
      rw [hsplit]
      simp [hrole, hany, hd2]
    simp [loop_step, hnc, hro]
  · intro st' hstep hmem hnot
    by_cases h24 : fc > 24
    · exfalso
      have hro : retry_observe env st r h fc = .error .other := by
        simp [retry_observe, TRY_START_OBSERVE_MAX_RETRY_TIME, h24]
      exact notify_error_no_retry_evt env st r h e fc st' _ hnc hro hstep
        hmem hnot
    · have h24' : ¬ fc > TRY_START_OBSERVE_MAX_RETRY_TIME := by
        simp [TRY_START_OBSERVE_MAX_RETRY_TIME]; omega
      rcases hfind : env.find_region_by_id r.id with e' | oinfo
      · exfalso
        have hro : retry_observe env st r h fc = .error (.contextual e') := by
          rw [retry_observe, if_neg h24', hfind]
        exact notify_error_no_retry_evt env st r h e fc st' _ hnc hro hstep
          hmem hnot
      · rcases oinfo with _ | info
        · exfalso
          have hro : retry_observe env st r h fc =
              .ok { st with events := .skipRetry .regionAbsent :: st.events } := by
            rw [retry_observe, if_neg h24', hfind]
          exact notify_skip_no_retry_evt env st r h e fc st' _ hnc hro hstep
            hmem hnot
        · by_cases hrole : info.role = StateRole.leader
          · by_cases hcond :
              (!(deregister_region_if st.subs r
                  (fun old _ => old.handle.id == h.id)).2 &&
                st.subs.any (fun x => x.meta.id == r.id)) = true
            · exfalso
              have hro : retry_observe env st r h fc =
                  .ok { st with events := .skipRetry .staleCommand :: st.events } := by
                rw [retry_observe, if_neg h24', hfind]
                simp [hrole, hcond]
              exact notify_skip_no_retry_evt env st r h e fc st' _ hnc hro hstep
                hmem hnot
            · refine ⟨by omega, ⟨info, rfl, hrole⟩, ?_⟩
              have hcond' := hcond
              simp only [Bool.and_eq_true, Bool.not_eq_true', not_and_or] at hcond'
              intro rec hrec hid
              rcases hcond' with hrem | hnoany
              · have hrem' : (deregister_region_if st.subs r
                    (fun old _ => old.handle.id == h.id)).2 = true := by
                  simpa using hrem
                obtain ⟨rec0, hrec0, hid0, hpred0⟩ :=
                  deregister_region_if_removed_mem st.subs r _ hrem'
                have hsame := hone rec hrec rec0 hrec0 (by rw [hid, hid0])
                have hh0 : rec0.handle.id = h.id := by simpa using hpred0
                rw [hsame, hh0]
              · exact absurd
                  (List.any_eq_true.mpr ⟨rec, hrec, by simp [hid]⟩) hnoany
          · exfalso
            have hro : retry_observe env st r h fc =
                .ok { st with events := .skipRetry .notLeader :: st.events } := by
              rw [retry_observe, if_neg h24', hfind]
              simp [hrole]
            exact notify_skip_no_retry_evt env st r h e fc st' _ hnc hro hstep
              hmem hnot

/-- Witness for C7: failure count 30 exceeds the budget and produces the
fatal task error selected by the region's range. -/
theorem c7_retry_observe_validation_witness :
    (loop_step envT stT (.notifyFailToStartObserve regT ⟨7⟩ .other 30)).1 =
      { stT with events :=
          .fatalErrorByRange regT.start_key regT.end_key (.contextual .other) ::
            stT.events } := by
  have h := c7_retry_observe_validation envT stT regT ⟨7⟩ .other 30 rfl
    (by
      intro x hx y hy _
      simp [stT] at hx hy
      rw [hx, hy])
  exact h.1 (by omega)

/-- C8 is false as stated: when the in-place merge fails, `refresh_resolver`
clears the old record with the always-true predicate — no epoch guard is
applied — so even a record tracked at the strictly newer epoch `(2, 2)` is
removed (and re-bootstrapped at the operation's region) by a refresh naming
epoch `(1, 1)`. -/
theorem c8_counterexample :
    epoch_lt regOldT.region_epoch regNewT.region_epoch ∧
    stEpochT.subs = [⟨regNewT, ⟨3⟩⟩] ∧
    (refresh_resolver envC8 stEpochT regOldT).subs = [⟨regOldT, ⟨10⟩⟩] := by
  exact ⟨by decide, rfl, rfl⟩

/-- C8 amended: on `RefreshResolver`, when the tracker's in-place update
fails, the old record is cleared unconditionally (no epoch guard) and the
region is re-bootstrapped: the owning task's checkpoint is fetched, the
region is marked pending under a fresh handle, and a scan is dispatched; a
checkpoint-fetch failure instead schedules `NotifyFailToStartObserve` with
failure count 0. -/
theorem c8_refresh_rebootstrap (env : Env) (st : LoopState) (r : Region)
    (rec : ObservationRecord) (pre post : List ObservationRecord) (task : Nat)
    (hsplit : st.subs = pre ++ rec :: post)
    (hpre : ∀ x ∈ pre, x.meta.id ≠ r.id)
    (hid : rec.meta.id = r.id)
    (hmerge : (try_update_region env st.subs r).2 = false)
    (htask : env.find_task_by_range r = some task) :
    (∀ cp, env.get_region_checkpoint task r = .ok cp →
      refresh_resolver env st r =
        { subs := ⟨r, ⟨st.nextHandleId⟩⟩ ::
            (pre ++ post).filter (fun x => x.meta.id ≠ r.id),
          pending := r.id :: st.pending,
          nextHandleId := st.nextHandleId + 1,
          events := .scanDispatched r.id st.nextHandleId cp ::
            .initialScanReason .regionChanged :: st.events }) ∧
    (∀ e2, env.get_region_checkpoint task r = .error e2 →
      refresh_resolver env st r =
        { subs := pre ++ post,
          pending := r.id :: st.pending,
          nextHandleId := st.nextHandleId + 1,
          events := .scheduleNotify r.id st.nextHandleId 0 ::
            .initialScanReason .regionChanged :: st.events }) := by
  have hu := try_update_region_fail env st.subs r hmerge
  have hd : deregister_region_if st.subs r (fun _ _ => true) =
      (pre ++ post, true) := by
    rw [hsplit, deregister_region_if_first_match pre rec post r _ hpre hid]
    simp
  constructor
  · intro cp hcp
    simp [refresh_resolver, hu, hd, htask, hcp,
      observe_over_with_initial_data_from_checkpoint, register_region]
  · intro e2 he2
    simp [refresh_resolver, hu, hd, htask, he2]

/-- Witness for C8's amended theorem: the re-bootstrap installs the fresh
handle id 10 and bumps the generator to 11. -/
theorem c8_refresh_rebootstrap_witness :
    refresh_resolver envC8 stEpochT regOldT =
      { subs := [⟨regOldT, ⟨10⟩⟩], pending := [1], nextHandleId := 11,
        events := [.scanDispatched 1 10 5,
          .initialScanReason .regionChanged] } := by
  have h := (c8_refresh_rebootstrap envC8 stEpochT regOldT ⟨regNewT, ⟨3⟩⟩
    [] [] 0 rfl (by simp) (by decide) (by decide) rfl).1 5 rfl
  rw [h]
  rfl

end SubscriptionManager
